import Mathlib

/-!
Verification of the tic-tac-toe board state model of the repository
(source: src/src/App.js).

The component `Board` keeps a 9-cell array state

  const [squares, setSquares] = useState(Array(9).fill(null));

and one mutation

  function handleClick(index) {
    const nextSquares = squares.slice();
    nextSquares[index] = "X";
    setSquares(nextSquares);
  }

The embedding below models a cell as `Option String` (JavaScript `null`
and out-of-range reads, both of which render as an empty square, become
`none`), a board as `List Cell`, and the JavaScript indexed assignment
`a[i] = v` with its real semantics: an in-range index overwrites the
slot, an index at or past the length extends the array (intermediate
holes read as undefined, here `none`), and a negative index creates a
non-index property and leaves every array element untouched.
-/

/-- A cell of the board: JavaScript `null` / holes are `none`, a marked
cell is `some "X"`. -/
abbrev Cell := Option String

/-- JavaScript indexed read `a[j]`: out-of-range reads yield undefined,
modelled as `none`. -/
def readCell (squares : List Cell) (j : Nat) : Cell :=
  (squares[j]?).getD none

/-- JavaScript indexed assignment `a[i] = v` on an array value. -/
def setJS (squares : List Cell) (i : Int) (v : Cell) : List Cell :=
  if 0 ≤ i then
    if i.toNat < squares.length then
      squares.set i.toNat v
    else
      squares ++ List.replicate (i.toNat - squares.length) none ++ [v]
  else
    squares

/-- The mutation `handleClick` of `Board` (the operation the
specification calls markCell), acting on the board value: copy the
squares array with slice, then write "X" at `index`. The copy makes the
result a fresh value, so at the level of board values the function is
`setJS` of the input. -/
def handleClick (squares : List Cell) (index : Int) : List Cell :=
  setJS squares index (some "X")

/-- The initial state of `Board`: `Array(9).fill(null)`. -/
def initialSquares : List Cell :=
  List.replicate 9 none

/-- A session of the component: starting from `initialSquares`, apply
`handleClick` once per click event. The rendering layer only ever
passes the indices 0..8. -/
def runClicks (idxs : List Nat) : List Cell :=
  idxs.foldl (fun b i => handleClick b (Int.ofNat i)) initialSquares

/-- Error kind named by the specification for a hardened
reimplementation of markCell. -/
inductive JsError
  | IndexOutOfRange
deriving DecidableEq, Repr

/-- The mutation embedded with an explicit failure channel. No
statement of the source body can throw (slice, indexed assignment and
the state setter are all total), so the embedding always returns
`Except.ok`. -/
def handleClickE (squares : List Cell) (index : Int) :
    Except JsError (List Cell) :=
  Except.ok (handleClick squares index)

/-! ## A store model for the aliasing claim

`squares.slice()` allocates a fresh array and the write
`nextSquares[index] = "X"` targets only that fresh array. To state that
the original array object is not mutated, we model a heap of array
values addressed by references. -/

/-- A heap of array values; a reference is an index into `arrays`. -/
structure Store where
  arrays : List (List Cell)

/-- Allocate a fresh array holding `a`; returns the new store and the
fresh reference. -/
def alloc (s : Store) (a : List Cell) : Store × Nat :=
  ({ arrays := s.arrays ++ [a] }, s.arrays.length)

/-- Dereference: the array value a reference points to. -/
def readRef (s : Store) (r : Nat) : List Cell :=
  (s.arrays[r]?).getD []

/-- In-place indexed assignment on the array behind reference `r`. -/
def writeIdx (s : Store) (r : Nat) (i : Int) (v : Cell) : Store :=
  { arrays := s.arrays.set r (setJS (readRef s r) i v) }

/-- `handleClick` at the heap level: `const nextSquares =
squares.slice()` allocates a copy, `nextSquares[index] = "X"` mutates
only the copy, and the reference to the copy becomes the new state. -/
def handleClickRef (s : Store) (squaresRef : Nat) (index : Int) :
    Store × Nat :=
  let alloced := alloc s (readRef s squaresRef)
  (writeIdx alloced.1 alloced.2 index (some "X"), alloced.2)

/-! ## Helper lemmas -/

lemma readCell_set_self (b : List Cell) (n : Nat) (v : Cell)
    (h : n < b.length) : readCell (b.set n v) n = v := by
  simp [readCell, List.getElem?_set_self, h]

lemma readCell_set_ne (b : List Cell) (m n : Nat) (v : Cell)
    (h : m ≠ n) : readCell (b.set m v) n = readCell b n := by
  simp [readCell, List.getElem?_set_ne, h]

lemma setJS_in_range (b : List Cell) (i : Int) (v : Cell)
    (h0 : 0 ≤ i) (h : i.toNat < b.length) :
    setJS b i v = b.set i.toNat v := by
  simp [setJS, h0, h]

lemma setJS_append (b : List Cell) (i : Int) (v : Cell)
    (h0 : 0 ≤ i) (h : b.length ≤ i.toNat) :
    setJS b i v = b ++ List.replicate (i.toNat - b.length) none ++ [v] := by
  simp [setJS, h0, Nat.not_lt.mpr h]

lemma setJS_neg (b : List Cell) (i : Int) (v : Cell) (h : i < 0) :
    setJS b i v = b := by
  simp [setJS, Int.not_le.mpr h]

lemma readCell_eq_none (b : List Cell) (k : Nat) (h : b.length ≤ k) :
    readCell b k = none := by
  simp [readCell, List.getElem?_eq_none h]

/-- The one read-level characterisation of the write: after
`handleClick b i` with `0 ≤ i`, cell `i` reads "X" and every other
index reads what it read before (out-of-range reads included). -/
lemma readCell_handleClick (b : List Cell) (i : Int) (h0 : 0 ≤ i)
    (k : Nat) :
    readCell (handleClick b i) k =
      if k = i.toNat then some "X" else readCell b k := by
  by_cases hin : i.toNat < b.length
  · rw [handleClick, setJS_in_range b i _ h0 hin]
    by_cases hk : k = i.toNat
    · rw [hk, if_pos rfl]
      exact readCell_set_self b i.toNat _ hin
    · rw [if_neg hk]
      exact readCell_set_ne b i.toNat k _ (fun e => hk e.symm)
  · push_neg at hin
    rw [handleClick, setJS_append b i _ h0 hin]
    have hmidlen : (b ++ List.replicate (i.toNat - b.length) none).length
        = i.toNat := by
      simp
      omega
    by_cases hk : k = i.toNat
    · rw [hk, if_pos rfl, readCell]
      rw [List.getElem?_append_right (le_of_eq hmidlen)]
      rw [hmidlen]
      simp
    · rw [if_neg hk]
      by_cases hkb : k < b.length
      · rw [readCell]
        rw [List.getElem?_append_left (by rw [hmidlen]; omega)]
        rw [List.getElem?_append_left hkb]
        rfl
      · push_neg at hkb
        rw [readCell_eq_none b k hkb]
        by_cases hkn : k < i.toNat
        · rw [readCell]
          rw [List.getElem?_append_left (by rw [hmidlen]; exact hkn)]
          rw [List.getElem?_append_right hkb]
          rw [List.getElem?_replicate_of_lt (by omega)]
          rfl
        · apply readCell_eq_none
          simp
          omega

/-- Writing at an in-range index preserves the length. -/
lemma length_handleClick_nat (b : List Cell) (i : Nat) (h : i < b.length) :
    (handleClick b (Int.ofNat i)).length = b.length := by
  rw [handleClick, setJS_in_range b (Int.ofNat i) _ (Int.ofNat_nonneg i)
    (by simpa using h)]
  exact List.length_set b _ _

lemma foldl_clicks_length (idxs : List Nat) (b : List Cell)
    (hb : b.length = 9) (h : ∀ i ∈ idxs, i < 9) :
    (idxs.foldl (fun b i => handleClick b (Int.ofNat i)) b).length = 9 := by
  induction idxs generalizing b with
  | nil => exact hb
  | cons x xs ih =>
    simp only [List.foldl_cons]
    apply ih
    · rw [length_handleClick_nat b x
        (by rw [hb]; exact h x (List.mem_cons_self x xs))]
      exact hb
    · intro i hi
      exact h i (List.mem_cons_of_mem x hi)

/-- Every cell of a board is either empty or holds the symbol "X". -/
def onlyX (b : List Cell) : Prop :=
  ∀ c ∈ b, c = none ∨ c = some "X"

lemma onlyX_handleClick (b : List Cell) (i : Int) (h : onlyX b) :
    onlyX (handleClick b i) := by
  intro c hc
  rw [handleClick, setJS] at hc
  split at hc
  · split at hc
    · rcases List.mem_or_eq_of_mem_set hc with h1 | h1
      · exact h c h1
      · right
        exact h1
    · rcases List.mem_append.mp hc with h1 | h1
      · rcases List.mem_append.mp h1 with h2 | h2
        · exact h c h2
        · left
          exact List.eq_of_mem_replicate h2
      · right
        simpa using h1
  · exact h c hc

lemma onlyX_foldl_clicks (idxs : List Nat) (b : List Cell) (hb : onlyX b) :
    onlyX (idxs.foldl (fun b i => handleClick b (Int.ofNat i)) b) := by
  induction idxs generalizing b with
  | nil => exact hb
  | cons x xs ih =>
    simp only [List.foldl_cons]
    exact ih _ (onlyX_handleClick b _ hb)


/-! ## Claim theorems -/

/-- Claim C1: for every board of 9 cells and every index i in [0,8],
markCell(board, i) returns a board whose cell i equals "X" and whose
every other cell equals its value in the input board. -/
theorem markCell_writes_target_only (b : List Cell) (i : Int)
    (hlen : b.length = 9) (h0 : 0 ≤ i) (h8 : i ≤ 8) :
    readCell (handleClick b i) i.toNat = some "X" ∧
    ∀ j : Nat, j ≠ i.toNat → readCell (handleClick b i) j = readCell b j := by
  constructor
  · rw [readCell_handleClick b i h0, if_pos rfl]
  · intro j hj
    rw [readCell_handleClick b i h0, if_neg hj]

/-- Witness for C1: the empty board, clicked at 4, reads "X" at 4 and
keeps cell 0 empty. -/
theorem markCell_writes_target_only_witness :
    initialSquares.length = 9 ∧ (0 : Int) ≤ 4 ∧ (4 : Int) ≤ 8 ∧
    readCell (handleClick initialSquares 4) 4 = some "X" ∧
    readCell (handleClick initialSquares 4) 0 = readCell initialSquares 0 :=
  ⟨by decide, by decide, by decide,
   (markCell_writes_target_only initialSquares 4 (by decide) (by decide)
     (by decide)).1,
   (markCell_writes_target_only initialSquares 4 (by decide) (by decide)
     (by decide)).2 0 (by decide)⟩

/-- Claim C2: the mutation never modifies the array its input reference
points to; the copy made by slice receives the write, and the new
current board is exactly markCell of the old board value. -/
theorem markCell_input_unmodified (s : Store) (r : Nat) (i : Int)
    (h : r < s.arrays.length) :
    readRef (handleClickRef s r i).1 r = readRef s r ∧
    readRef (handleClickRef s r i).1 (handleClickRef s r i).2 =
      handleClick (readRef s r) i := by
  have hne : s.arrays.length ≠ r := Nat.ne_of_gt h
  constructor
  · simp only [handleClickRef, alloc, writeIdx, readRef]
    rw [List.getElem?_set_ne hne]
    rw [List.getElem?_append_left h]
  · simp only [handleClickRef, alloc, writeIdx, readRef]
    rw [List.getElem?_set_self (by simp)]
    rw [List.getElem?_concat_length]
    simp [handleClick]

/-- Witness for C2: a one-array store holding the empty board; the
click at 4 leaves the stored original untouched. -/
theorem markCell_input_unmodified_witness :
    0 < (Store.mk [initialSquares]).arrays.length ∧
    readRef (handleClickRef (Store.mk [initialSquares]) 0 4).1 0 =
      readRef (Store.mk [initialSquares]) 0 :=
  ⟨by decide,
   (markCell_input_unmodified (Store.mk [initialSquares]) 0 4 (by decide)).1⟩

/-- Claim C3: the initial board has 9 cells, and after any sequence of
markCell applications at indices in [0,8] the board still has 9
cells. -/
theorem board_length_always_nine :
    initialSquares.length = 9 ∧
    ∀ idxs : List Nat, (∀ i ∈ idxs, i < 9) → (runClicks idxs).length = 9 := by
  refine ⟨rfl, ?_⟩
  intro idxs h
  rw [runClicks]
  exact foldl_clicks_length idxs initialSquares rfl h

/-- Witness for C3: the click sequence 0, 4, 8, 4 keeps the length 9. -/
theorem board_length_always_nine_witness :
    (runClicks [0, 4, 8, 4]).length = 9 :=
  board_length_always_nine.2 [0, 4, 8, 4] (by decide)

/-- Counterexample for C4: at the concrete inputs the claim names, the
source mutation does not fail with IndexOutOfRange; it returns a
successful board (index 9 appends a tenth cell, index -1 returns the
board unchanged). -/
theorem markCell_out_of_range_no_error :
    handleClickE initialSquares 9 ≠ Except.error JsError.IndexOutOfRange ∧
    handleClickE initialSquares (-1) ≠ Except.error JsError.IndexOutOfRange ∧
    handleClickE initialSquares 9 =
      Except.ok (List.replicate 9 none ++ [some "X"]) ∧
    handleClickE initialSquares (-1) = Except.ok initialSquares :=
  ⟨fun h => Except.noConfusion h, fun h => Except.noConfusion h, rfl, rfl⟩

/-- Claim C4 as amended: for every 9-cell board, markCell(board, 9) and
markCell(board, -1) do not fail; index 9 extends the board by one cell
holding "X" and index -1 leaves the board value unchanged. -/
theorem markCell_out_of_range_succeeds (b : List Cell)
    (hlen : b.length = 9) :
    handleClickE b 9 = Except.ok (b ++ [some "X"]) ∧
    handleClickE b (-1) = Except.ok b := by
  constructor
  · rw [handleClickE, handleClick,
      setJS_append b 9 _ (by decide) (by rw [hlen]; decide)]
    rw [show ((9 : Int).toNat - b.length) = 0 by rw [hlen]; rfl]
    simp
  · rw [handleClickE, handleClick, setJS_neg b (-1) _ (by decide)]

/-- Witness for C4 amended: the empty board. -/
theorem markCell_out_of_range_succeeds_witness :
    initialSquares.length = 9 ∧
    handleClickE initialSquares 9 =
      Except.ok (initialSquares ++ [some "X"]) ∧
    handleClickE initialSquares (-1) = Except.ok initialSquares :=
  ⟨by decide,
   (markCell_out_of_range_succeeds initialSquares (by decide)).1,
   (markCell_out_of_range_succeeds initialSquares (by decide)).2⟩

/-- Claim C5: markCell is idempotent; marking the same in-range index
twice gives the same board as marking it once. -/
theorem markCell_idempotent (b : List Cell) (i : Int)
    (hlen : b.length = 9) (h0 : 0 ≤ i) (h8 : i ≤ 8) :
    handleClick (handleClick b i) i = handleClick b i := by
  have hin : i.toNat < b.length := by
    rw [hlen]
    omega
  simp only [handleClick]
  rw [setJS_in_range b i _ h0 hin]
  rw [setJS_in_range _ i _ h0 (by simpa using hin)]
  exact List.set_set _ _ _ _

/-- Witness for C5: the empty board at index 4. -/
theorem markCell_idempotent_witness :
    initialSquares.length = 9 ∧ (0 : Int) ≤ 4 ∧ (4 : Int) ≤ 8 ∧
    handleClick (handleClick initialSquares 4) 4 =
      handleClick initialSquares 4 :=
  ⟨by decide, by decide, by decide,
   markCell_idempotent initialSquares 4 (by decide) (by decide) (by decide)⟩

/-- Claim C6: every board reachable from the initial board by clicks at
indices in [0,8] holds in each cell either empty (none) or the symbol
"X"; and marking an already-marked cell writes "X" again, without
raising an error. -/
theorem only_symbol_X_ever_written :
    (∀ idxs : List Nat, (∀ i ∈ idxs, i < 9) →
      ∀ c ∈ runClicks idxs, c = none ∨ c = some "X") ∧
    (∀ b : List Cell, readCell b 0 = some "X" →
      readCell (handleClick b 0) 0 = some "X" ∧
      handleClickE b 0 = Except.ok (handleClick b 0)) := by
  constructor
  · intro idxs _ c hc
    refine onlyX_foldl_clicks idxs initialSquares ?_ c hc
    intro x hx
    left
    exact List.eq_of_mem_replicate hx
  · intro b _
    refine ⟨?_, rfl⟩
    rw [readCell_handleClick b 0 (le_refl 0) 0]
    simp

/-- Witness for C6: after the clicks 0, 0, 4 the mark "X" is on the
board, and it satisfies the invariant. -/
theorem only_symbol_X_ever_written_witness :
    some "X" ∈ runClicks [0, 0, 4] ∧
    ((some "X" : Cell) = none ∨ (some "X" : Cell) = some "X") :=
  ⟨by decide,
   only_symbol_X_ever_written.1 [0, 0, 4] (by decide) (some "X") (by decide)⟩

/-- Claim C7: the session starts from a single initial board of 9
cells, all empty; before any click the current board is that initial
board. -/
theorem initial_board_all_empty :
    initialSquares.length = 9 ∧ initialSquares.all Option.isNone = true ∧
    runClicks [] = initialSquares :=
  ⟨rfl, rfl, rfl⟩

/-- Claim C8: the mutation never returns an error, and each application
either leaves the board value unchanged or produces a board that reads
"X" at exactly one position and reads as before everywhere else — no
other outcome (in particular no partially applied write) exists. -/
theorem no_partial_write (b : List Cell) (i : Int) :
    handleClickE b i = Except.ok (handleClick b i) ∧
    (handleClick b i = b ∨
      ∃ j : Nat, readCell (handleClick b i) j = some "X" ∧
        ∀ k : Nat, k ≠ j → readCell (handleClick b i) k = readCell b k) := by
  refine ⟨rfl, ?_⟩
  by_cases h0 : 0 ≤ i
  · right
    refine ⟨i.toNat, ?_, ?_⟩
    · rw [readCell_handleClick b i h0, if_pos rfl]
    · intro k hk
      rw [readCell_handleClick b i h0, if_neg hk]
  · left
    rw [handleClick]
    exact setJS_neg b i _ (by omega)

/-- Witness for C8: the empty board clicked at 4. -/
theorem no_partial_write_witness :
    handleClickE initialSquares 4 = Except.ok (handleClick initialSquares 4) :=
  (no_partial_write initialSquares 4).1

/-- Claim C9: markCell applications commute; for a 9-cell board and
in-range indices, the order of two clicks does not matter. -/
theorem markCell_commutes (b : List Cell) (i j : Int)
    (hlen : b.length = 9) (hi0 : 0 ≤ i) (hi8 : i ≤ 8)
    (hj0 : 0 ≤ j) (hj8 : j ≤ 8) :
    handleClick (handleClick b i) j = handleClick (handleClick b j) i := by
  have hi : i.toNat < b.length := by
    rw [hlen]
    omega
  have hj : j.toNat < b.length := by
    rw [hlen]
    omega
  simp only [handleClick]
  rw [setJS_in_range b i _ hi0 hi, setJS_in_range b j _ hj0 hj]
  rw [setJS_in_range _ j _ hj0 (by simpa using hj)]
  rw [setJS_in_range _ i _ hi0 (by simpa using hi)]
  by_cases hij : i.toNat = j.toNat
  · rw [hij]
  · exact List.set_comm _ _ b hij

/-- Witness for C9: clicks at 2 and 7 on the empty board commute. -/
theorem markCell_commutes_witness :
    initialSquares.length = 9 ∧ (0 : Int) ≤ 2 ∧ (2 : Int) ≤ 8 ∧
    (0 : Int) ≤ 7 ∧ (7 : Int) ≤ 8 ∧
    handleClick (handleClick initialSquares 2) 7 =
      handleClick (handleClick initialSquares 7) 2 :=
  ⟨by decide, by decide, by decide, by decide, by decide,
   markCell_commutes initialSquares 2 7 (by decide) (by decide) (by decide)
     (by decide) (by decide)⟩

/-- Claim C10: in the source an out-of-range index does not fail: on a
9-cell board, index 9 yields a 10-cell board with the first 9 cells
unchanged and "X" at position 9, and index -1 leaves every cell at
indices 0-8 equal to its input value. -/
theorem out_of_range_click_behavior (b : List Cell) (hlen : b.length = 9) :
    (handleClick b 9).length = 10 ∧
    (∀ j : Nat, j < 9 → readCell (handleClick b 9) j = readCell b j) ∧
    readCell (handleClick b 9) 9 = some "X" ∧
    (∀ j : Nat, j ≤ 8 → readCell (handleClick b (-1)) j = readCell b j) := by
  have h9 : ((9 : Int)).toNat = 9 := rfl
  have hneg : handleClick b (-1) = b := by
    rw [handleClick]
    exact setJS_neg b (-1) _ (by decide)
  refine ⟨?_, ?_, ?_, ?_⟩
  · rw [handleClick, setJS_append b 9 _ (by decide) (by rw [hlen]; decide)]
    rw [show ((9 : Int).toNat - b.length) = 0 by rw [hlen]; rfl]
    simp [hlen]
  · intro j hj
    rw [readCell_handleClick b 9 (by decide), if_neg (by omega)]
  · rw [readCell_handleClick b 9 (by decide), if_pos h9.symm]
  · intro j _
    rw [hneg]

/-- Witness for C10: the empty board. -/
theorem out_of_range_click_behavior_witness :
    initialSquares.length = 9 ∧
    (handleClick initialSquares 9).length = 10 ∧
    readCell (handleClick initialSquares 9) 9 = some "X" ∧
    readCell (handleClick initialSquares 9) 3 = readCell initialSquares 3 ∧
    readCell (handleClick initialSquares (-1)) 3 =
      readCell initialSquares 3 :=
  ⟨by decide,
   (out_of_range_click_behavior initialSquares (by decide)).1,
   (out_of_range_click_behavior initialSquares (by decide)).2.2.1,
   (out_of_range_click_behavior initialSquares (by decide)).2.1 3 (by decide),
   (out_of_range_click_behavior initialSquares (by decide)).2.2.2 3
     (by decide)⟩
